import Mathlib

/-!
Verification of the metadata-resolution core of the mediadb_gui repository
(src/app.py), shallowly embedded in Lean 4.

Strings are modelled over `List Char` so that the Python string primitives
(`str.strip`, `str.split`, `str.replace`, `str.lower`, substring tests and the
year regex) can be embedded faithfully and reasoned about by induction.
Python's default whitespace set for `strip`/`split` is the ASCII set
{' ', '\t', '\n', '\r', '\x0b', '\x0c'}; digit and word-character tests are
modelled on their ASCII behaviour, which covers every input appearing in the
source and its spec.

Network I/O is modelled by passing each provider's observed outcome as an
explicit parameter: `none` stands for any exception raised inside the
corresponding `try` block (transport error, JSON parse error, missing key),
and `some (ok, body)` for a parsed HTTP response together with its `r.ok`
status flag.
-/

/-- Python's default whitespace set for `str.strip` / `str.split` (ASCII). -/
def pyIsWs (c : Char) : Bool :=
  c = ' ' || c = '\t' || c = '\n' || c = '\r' || c = '\x0b' || c = '\x0c'

/-- `str.strip()`: drop leading and trailing whitespace. -/
def pyTrimLC (l : List Char) : List Char :=
  ((l.dropWhile pyIsWs).reverse.dropWhile pyIsWs).reverse

/-- `text.split('\n')`: split on newline characters, keeping empty pieces
(always returns at least one piece, like Python). -/
def splitNl : List Char → List (List Char)
  | [] => [[]]
  | '\n' :: cs => [] :: splitNl cs
  | c :: cs =>
    match splitNl cs with
    | t :: ts => (c :: t) :: ts
    | [] => [[c]]

/-- `s.startswith(pat)` on character lists. -/
def hasPrefixLC : List Char → List Char → Bool
  | [], _ => true
  | _ :: _, [] => false
  | p :: ps, c :: cs => p = c && hasPrefixLC ps cs

/-- Python's `pat in s` substring test (for non-empty `pat`). -/
def containsLC (pat : List Char) : List Char → Bool
  | [] => hasPrefixLC pat []
  | c :: cs => hasPrefixLC pat (c :: cs) || containsLC pat cs

/-- `s.lower()` (ASCII). -/
def pyLowerLC (l : List Char) : List Char := l.map Char.toLower

/-- `len(s.split())`: the number of maximal whitespace-free runs. -/
def wsTokensCount (l : List Char) : Nat :=
  (l.foldl
    (fun (acc : Nat × Bool) c =>
      if pyIsWs c then (acc.1, true)
      else (if acc.2 then acc.1 + 1 else acc.1, false))
    (0, true)).1

/-- `line.replace('by ', '')`: remove every occurrence of the case-sensitive
three-character pattern `by `, scanning left to right without rescanning. -/
def byReplace : List Char → List Char
  | [] => []
  | 'b' :: 'y' :: ' ' :: rest => byReplace rest
  | c :: cs => c :: byReplace cs

/-- Python `\w` (ASCII part): letters, digits, underscore. -/
def isWordChar (c : Char) : Bool := c.isAlphanum || c = '_'

/-- First match of `re.findall(r'\b(19|20)\d{2}\b', line)`, returning the text
of the capturing group `(19|20)` — exactly what `re.findall` returns when the
pattern contains one group. `prev` is the character immediately before the
current scan position (`none` at the start of the line), used for the left
word-boundary test. -/
def findYearGroup (prev : Option Char) : List Char → Option (List Char)
  | [] => none
  | c0 :: rest =>
    match rest with
    | c1 :: c2 :: c3 :: tail =>
      if (prev.elim true (fun p => !isWordChar p)) &&
         ((c0 = '1' && c1 = '9') || (c0 = '2' && c1 = '0')) &&
         c2.isDigit && c3.isDigit &&
         (tail.head?.elim true (fun n => !isWordChar n)) then
        some [c0, c1]
      else findYearGroup (some c0) rest
    | _ => none

/-- Python truthiness of an optional string-as-list: `None` and `''` are falsy.
Models the `if not extracted.get('author')` / `.get('year')` guards. -/
def pyFalsyLC (o : Option (List Char)) : Bool :=
  match o with
  | none => true
  | some l => l.isEmpty

/-- Python truthiness of an optional string (`None` and `''` falsy). -/
def pyFalsyStr (o : Option String) : Bool :=
  match o with
  | none => true
  | some s => s.isEmpty

/-- The non-empty trimmed lines of the OCR text:
`[line.strip() for line in text.split('\n') if line.strip()]`. -/
def linesOfLC (cs : List Char) : List (List Char) :=
  ((splitNl cs).map pyTrimLC).filter (fun l => !l.isEmpty)

/-- The author-candidate test from `parse_media_text`:
`'by ' in line.lower() or len(line.split()) == 2 and not any(char.isdigit() for char in line)`
(Python precedence: `A or (B and C)`). -/
def authorCandB (line : List Char) : Bool :=
  containsLC ['b', 'y', ' '] (pyLowerLC line) ||
    (wsTokensCount line == 2 && !(line.any Char.isDigit))

/-- The title-candidate test from `parse_media_text`:
`len(line) > 10 and not line.lower().startswith(('isbn', 'by ', 'copyright'))`. -/
def titleCandB (line : List Char) : Bool :=
  decide (line.length > 10) &&
    !(hasPrefixLC "isbn".toList (pyLowerLC line) ||
      hasPrefixLC "by ".toList (pyLowerLC line) ||
      hasPrefixLC "copyright".toList (pyLowerLC line))

/-- One iteration of the `for line in lines` loop of `parse_media_text`,
updating the (author, year) pair. -/
def scanStep (acc : Option (List Char) × Option (List Char)) (line : List Char) :
    Option (List Char) × Option (List Char) :=
  let author :=
    if authorCandB line && pyFalsyLC acc.1 then some (pyTrimLC (byReplace line))
    else acc.1
  let year :=
    match findYearGroup none line with
    | some y => if pyFalsyLC acc.2 then some y else acc.2
    | none => acc.2
  (author, year)

/-- `max(potential_titles, key=len)`: Python's `max` keeps the first element
among those of maximal key, because later elements replace only on strict
improvement. -/
def pyMaxByLen (x : List Char) (xs : List (List Char)) : List Char :=
  xs.foldl (fun b l => if l.length > b.length then l else b) x

/-- Output record of `parse_media_text` (the `extracted` dict). -/
structure Extracted where
  title : Option String := none
  author : Option String := none
  year : Option String := none
  deriving DecidableEq, Repr

/-- `parse_media_text(text, media_type)` from src/app.py. The `media_type`
argument is accepted but never used by the source function's body. -/
def parse_media_text (text : String) (media_type : String) : Extracted :=
  let lines := linesOfLC text.toList
  let scanned := lines.foldl scanStep (none, none)
  let potential := lines.filter titleCandB
  { title :=
      match potential with
      | [] => none
      | p :: ps => some (String.mk (pyMaxByLen p ps))
    author := scanned.1.map String.mk
    year := scanned.2.map String.mk }

/-! ## Barcode lookup providers (src/app.py lines 131-240)

Each provider's network interaction is abstracted into a parameter of type
`Net α := Option (Bool × α)`: `none` models any exception raised inside the
provider's `try` block (caught by its blanket `except Exception: pass`), and
`some (ok, body)` a parsed response, `ok` being `r.ok` and `body` the decoded
JSON restricted to the keys the source reads. Malformed bodies whose access
raises (missing key, wrong type) are represented by the `none` outcome. -/

abbrev Net (α : Type) := Option (Bool × α)

/-- The metadata dictionary passed around by the barcode path; every key any
of the three providers or `detect_and_lookup` may set. Absent keys are `none`. -/
structure Meta where
  title : Option String := none
  author : Option String := none
  artist : Option String := none
  publisher : Option String := none
  year : Option String := none
  isbn : Option String := none
  upc : Option String := none
  genre : Option String := none
  director : Option String := none
  detected_type : Option String := none
  media_type : Option String := none
  deriving DecidableEq, Repr

/-- `x[:4] if x else None` applied to an optional string (empty string falsy). -/
def pyTake4 (o : Option String) : Option String :=
  match o with
  | some s => if s.isEmpty then none else some (s.take 4)
  | none => none

/-- `', '.join(authors) if authors else None` (empty list falsy). -/
def joinIfSome (o : Option (List String)) : Option String :=
  match o with
  | some (a :: as) => some (String.intercalate ", " (a :: as))
  | _ => none

/-- `volumeInfo` of the first Google Books item. -/
structure GBVolumeInfo where
  title : Option String := none
  authors : Option (List String) := none
  publisher : Option String := none
  publishedDate : Option String := none
  deriving DecidableEq, Repr

/-- Google Books response body: `totalItems` plus the `volumeInfo` of each
element of `items` (absent `items` key with `totalItems > 0` is an exception,
i.e. the `none` network outcome). -/
structure GBData where
  totalItems : Nat := 0
  items : List GBVolumeInfo := []
  deriving DecidableEq, Repr

/-- OpenLibrary record under the `ISBN:<isbn>` key. Author names are
`Option String` because each element is `a.get('name')`; a `None` name makes
`', '.join` raise, aborting the block. `publishers` entries are the
`.get('name')` of each publisher dict. -/
structure OLItem where
  title : Option String := none
  authors : Option (List (Option String)) := none
  publishers : Option (List (Option String)) := none
  publish_date : Option String := none
  deriving DecidableEq, Repr

/-- OpenLibrary response body: `item` is the value under `ISBN:<isbn>` when
that key is present. -/
structure OLData where
  item : Option OLItem := none
  deriving DecidableEq, Repr

/-- The Google Books attempt inside `lookup_isbn` (first `try` block). -/
def gbTry (gb : Net GBData) (isbn : String) : Option Meta :=
  match gb with
  | some (true, data) =>
    if data.totalItems > 0 then
      match data.items with
      | vol :: _ =>
        some { title := vol.title
               author := joinIfSome vol.authors
               publisher := vol.publisher
               year := pyTake4 vol.publishedDate
               isbn := some isbn }
      | [] => none
    else none
  | _ => none

/-- The OpenLibrary attempt inside `lookup_isbn` (second `try` block). A
`None` author name raises `TypeError` inside `', '.join`, which the blanket
`except` turns into a fall-through, i.e. `none`. -/
def olTry (ol : Net OLData) (isbn : String) : Option Meta :=
  match ol with
  | some (true, data) =>
    match data.item with
    | some item =>
      if (item.authors.getD []).any Option.isNone then none
      else
        some { title := item.title
               author :=
                 match item.authors with
                 | some (_ :: _) =>
                   some (String.intercalate ", "
                     ((item.authors.getD []).filterMap id))
                 | _ => none
               publisher :=
                 match item.publishers with
                 | some (p :: _) => p
                 | _ => none
               year := pyTake4 item.publish_date
               isbn := some isbn }
    | none => none
  | _ => none

/-- `lookup_isbn(isbn)`: Google Books, then (only if it yielded nothing, the
`ok`/empty cases and the exception case alike) OpenLibrary. -/
def lookup_isbn (gb : Net GBData) (ol : Net OLData) (isbn : String) : Option Meta :=
  match gbTry gb isbn with
  | some m => some m
  | none => olTry ol isbn

/-- One MusicBrainz release: `artistCredit` entries are `a.get('name')`;
the source filters out falsy names before joining. -/
structure MBRelease where
  title : Option String := none
  artistCredit : Option (List (Option String)) := none
  date : Option String := none
  deriving DecidableEq, Repr

/-- MusicBrainz response body (`releases` list). -/
structure MBData where
  releases : List MBRelease := []
  deriving DecidableEq, Repr

/-- `lookup_upc_musicbrainz(upc)` from src/app.py. -/
def lookup_upc_musicbrainz (mb : Net MBData) (upc : String) : Option Meta :=
  match mb with
  | some (true, data) =>
    match data.releases with
    | rel :: _ =>
      some { title := rel.title
             artist :=
               match rel.artistCredit with
               | some (c :: cs) =>
                 some (String.intercalate ", "
                   (((c :: cs).filterMap id).filter (fun s => !s.isEmpty)))
               | _ => none
             year := pyTake4 rel.date
             upc := some upc }
    | [] => none
  | _ => none

/-- One TMDB search result. -/
structure TMDBMovie where
  title : Option String := none
  release_date : Option String := none
  deriving DecidableEq, Repr

/-- TMDB response body (`results` list). -/
structure TMDBData where
  results : List TMDBMovie := []
  deriving DecidableEq, Repr

/-- `lookup_upc_tmdb(upc)`: the `TMDB_API_KEY` environment variable is passed
explicitly; `if not tmdb_key` makes both an unset and an empty key behave as
"no result" before any network interaction (`net` is not consulted). -/
def lookup_upc_tmdb (tmdb_key : Option String) (net : Net TMDBData) (upc : String) :
    Option Meta :=
  if pyFalsyStr tmdb_key then none
  else
    match net with
    | some (true, data) =>
      match data.results with
      | mv :: _ =>
        some { title := mv.title
               year := pyTake4 mv.release_date
               upc := some upc }
      | [] => none
    | _ => none

/-- The three candidate providers of `detect_and_lookup`, in the source's
labels: the Google-Books/OpenLibrary ISBN chain, the MusicBrainz audio
lookup and the TMDB video lookup. -/
inductive ProviderId
  | isbnChain
  | audioLookup
  | videoLookup
  deriving DecidableEq, Repr

/-- The five network-facing inputs of one barcode resolution: the two book
catalog outcomes, the MusicBrainz outcome, the TMDB credential
(`TMDB_API_KEY`) and the TMDB outcome. -/
structure Providers where
  gb : Net GBData
  ol : Net OLData
  mb : Net MBData
  tmdbKey : Option String
  tmdb : Net TMDBData

/-- `str.strip()` on a Lean string. -/
def pyStrip (s : String) : String := String.mk (pyTrimLC s.toList)

/-- The `len(bc) in (12, 13)` block of `detect_and_lookup`: MusicBrainz then
TMDB, short-circuiting on first success. `tr` is the trace of provider
invocations accumulated so far. -/
def afterIsbn (P : Providers) (bc : String) (tr : List ProviderId) :
    Option Meta × List ProviderId :=
  if bc.length = 12 ∨ bc.length = 13 then
    match lookup_upc_musicbrainz P.mb bc with
    | some res =>
      (some { res with detected_type := some "upc", media_type := some "audio" },
       tr ++ [ProviderId.audioLookup])
    | none =>
      match lookup_upc_tmdb P.tmdbKey P.tmdb bc with
      | some res =>
        (some { res with detected_type := some "upc", media_type := some "video" },
         tr ++ [ProviderId.audioLookup, ProviderId.videoLookup])
      | none => (none, tr ++ [ProviderId.audioLookup, ProviderId.videoLookup])
  else (none, tr)

/-- `detect_and_lookup(barcode)` from src/app.py, instrumented with the list
of provider functions invoked, in call order (the returned dictionaries are
non-empty whenever returned, so Python's `if res:` is `Option.isSome`). -/
def detect_and_lookup_trace (P : Providers) (barcode : String) :
    Option Meta × List ProviderId :=
  let bc := pyStrip barcode
  if bc.length = 10 ∨ bc.length = 13 then
    match lookup_isbn P.gb P.ol bc with
    | some res =>
      (some { res with detected_type := some "isbn", media_type := some "book" },
       [ProviderId.isbnChain])
    | none => afterIsbn P bc [ProviderId.isbnChain]
  else afterIsbn P bc []

/-- `detect_and_lookup(barcode)`: the returned metadata (first component of
the instrumented version). -/
def detect_and_lookup (P : Providers) (barcode : String) : Option Meta :=
  (detect_and_lookup_trace P barcode).1

/-! ## The /lookup_barcode endpoint (src/app.py lines 375-413) -/

/-- Python's `a or b` on optional strings: an absent or empty `a` yields `b`. -/
def pyOrStr (a b : Option String) : Option String :=
  match a with
  | some s => if s.isEmpty then b else some s
  | none => b

/-- The JSON object returned with HTTP 200 by `/lookup_barcode`, one field
per key of the source's `response` dict. -/
structure BarcodeResponse where
  barcode : String
  media_type : Option String
  title : Option String
  year : Option String
  notes : Option String
  author : Option String
  isbn : Option String
  publisher : Option String
  page_count : Option Nat
  physical_description : Option String
  book_genre : Option String
  artist : Option String
  album : Option String
  track_count : Option Nat
  audio_format : Option String
  audio_genre : Option String
  director : Option String
  runtime_minutes : Option Nat
  rating : Option String
  video_format : Option String
  video_genre : Option String
  deriving DecidableEq, Repr

/-- Outcome of a `/lookup_barcode` request: 400 when the `barcode` field is
missing or falsy, 404 with the error message and the echoed barcode when
`detect_and_lookup` found nothing, 200 with the normalized response otherwise.
`detect_and_lookup` is total (every provider exception is caught inside the
provider), so the handler's `except Exception` 500 branch is unreachable on
this path and has no constructor. -/
inductive BarcodeEndpointResult
  | badRequest
  | notFound (error : String) (barcode : String)
  | ok (resp : BarcodeResponse)
  deriving DecidableEq, Repr

/-- The HTTP status of a `/lookup_barcode` outcome. -/
def statusCode : BarcodeEndpointResult → Nat
  | .badRequest => 400
  | .notFound _ _ => 404
  | .ok _ => 200

/-- `lookup_barcode()` from src/app.py; `barcodeField` is
`data.get('barcode') if data else None`. -/
def lookup_barcode (barcodeField : Option String) (P : Providers) :
    BarcodeEndpointResult :=
  match barcodeField with
  | none => .badRequest
  | some b =>
    if b.isEmpty then .badRequest
    else
      match detect_and_lookup P b with
      | none => .notFound "No metadata found for barcode" b
      | some m =>
        .ok { barcode := b
              media_type := m.media_type
              title := m.title
              year := m.year
              notes := none
              author := pyOrStr m.author m.artist
              isbn := m.isbn
              publisher := m.publisher
              page_count := none
              physical_description := none
              book_genre := if m.media_type = some "book" then m.genre else none
              artist := if m.media_type = some "audio" then m.artist else none
              album := none
              track_count := none
              audio_format := none
              audio_genre := none
              director := if m.media_type = some "video" then m.director else none
              runtime_minutes := none
              rating := none
              video_format := none
              video_genre := none }

/-! ## The photo path (src/app.py lines 243-312 and 348-372)

The vision call's outcome is a parameter: `exn` models any exception raised
inside the `try` block (bad data-URI, base64 error, transport error, JSON
parse error, missing key), and `resp status rtext body` a response with its
HTTP status code, its `response.text`, and `body` the `responses` list when
the key is present (`none` when absent). Scores are modelled as rationals;
the source only compares them with strict `>`. The decoded image bytes are
only re-encoded into the outbound request, so they are absorbed by the
outcome parameter. -/

/-- One entry of `localizedObjectAnnotations`: `name` and `score`. -/
structure ObjLabel where
  name : String
  score : ℚ
  deriving DecidableEq, Repr

/-- The single element of `responses` the source reads: the object labels
(defaulting to `[]`) and the `description` of each text annotation. -/
structure VisionAnnotation where
  objects : List ObjLabel := []
  texts : List String := []
  deriving DecidableEq, Repr

/-- Observed outcome of the vision request. -/
inductive VisionNet
  | exn (msg : String)
  | resp (status : Nat) (rtext : String) (body : Option (List VisionAnnotation))
  deriving DecidableEq, Repr

/-- One iteration of the object-classification loop of
`process_image_for_media`, with `elif` semantics — a keyword test that fails
on score still lets the next branch run. -/
def classifyStep (acc : Option String × ℚ) (obj : ObjLabel) : Option String × ℚ :=
  let name := pyLowerLC obj.name.toList
  let score := obj.score
  if containsLC "book".toList name && decide (score > acc.2) then
    (some "book", score)
  else if (containsLC "cd".toList name ||
           containsLC "disc".toList name) && decide (score > acc.2) then
    (some "audio", score)
  else if (containsLC "dvd".toList name ||
           containsLC "bluray".toList name ||
           containsLC "video".toList name) && decide (score > acc.2) then
    (some "video", score)
  else acc

/-- The object-classification loop of `process_image_for_media`: a running
best `(media_type, confidence)` starting at `(None, 0)`, replaced only on
strict `score > confidence`. -/
def classifyLabels (objects : List ObjLabel) : Option String × ℚ :=
  objects.foldl classifyStep (none, 0)

/-- Return value of `process_image_for_media`: either the `{'error': ...}`
dict or the success dict (whose `media_type` is `media_type or 'book'`, a
plain string, never `None`). -/
inductive PIMResult
  | err (msg : String)
  | ok (media_type : String) (title : Option String) (author : Option String)
      (year : Option String) (full_text : String) (confidence : ℚ)
  deriving DecidableEq, Repr

/-- `process_image_for_media(image_data)` from src/app.py, with the
`GOOGLE_VISION_API_KEY` configuration value and the vision outcome passed
explicitly. The credential check precedes the `try` block, so a falsy key
returns before anything network-related is evaluated. -/
def process_image_for_media (api_key : Option String) (net : VisionNet) : PIMResult :=
  if pyFalsyStr api_key then .err "Google Vision API key not configured"
  else
    match net with
    | .exn msg => .err ("Vision API error: " ++ msg)
    | .resp status rtext body =>
      if status ≠ 200 then .err ("Vision API error: " ++ rtext)
      else
        match body with
        | none => .err "No response from Vision API"
        | some [] => .err "No response from Vision API"
        | some (result :: _) =>
          let mc := classifyLabels result.objects
          let full_text :=
            match result.texts with
            | t :: _ => t
            | [] => ""
          let extracted := parse_media_text full_text (mc.1.getD "book")
          .ok (mc.1.getD "book") extracted.title extracted.author extracted.year
            full_text mc.2

/-- The reported media type of a `process_image_for_media` outcome (`none` on
the error dict). -/
def pimMediaType : PIMResult → Option String
  | .err _ => none
  | .ok mt _ _ _ _ _ => some mt

/-- Outcome of a `/process_image` request: 400 when the `image` field is
missing or falsy, 500 with the error message when `process_image_for_media`
returned its error dict, 200 with the normalized response otherwise. -/
inductive ImageEndpointResult
  | badRequest
  | serverError (msg : String)
  | okResp (media_type : String) (title : Option String) (year : Option String)
      (notes : String) (author : Option String) (confidence : ℚ)
  deriving DecidableEq, Repr

/-- `process_image()` from src/app.py; `imageField` is
`data.get('image') if data else None`. -/
def process_image (imageField : Option String) (api_key : Option String)
    (net : VisionNet) : ImageEndpointResult :=
  if pyFalsyStr imageField then .badRequest
  else
    match process_image_for_media api_key net with
    | .err msg => .serverError msg
    | .ok mt title author year full_text confidence =>
      .okResp mt title year ("OCR Text: " ++ full_text) author confidence

/-! ## Specification-side definitions

These render the spec's words (not the source) for the claims that compare
the two: the title-selection rule, the author rule as the spec states it
(leading `by ` only) and as amended (every `by ` occurrence removed), and the
fixed keyword set of the photo-path classifier. -/

/-- Spec rendering of the title rule: among the non-empty trimmed lines
longer than 10 characters not starting (case-insensitively) with `isbn`,
`by ` or `copyright`, the first line of maximal length; `none` when no line
survives. -/
def titleSpec (text : String) : Option String :=
  let cands := (linesOfLC text.toList).filter titleCandB
  (cands.find? (fun s => cands.all (fun u => u.length ≤ s.length))).map String.mk

/-- Spec rendering of the author rule exactly as claimed: first candidate
line, with only a LEADING case-sensitive `by ` stripped, then trimmed. -/
def authorClaimedSpec (text : String) : Option String :=
  ((linesOfLC text.toList).find? authorCandB).map
    (fun l =>
      String.mk (pyTrimLC (if hasPrefixLC "by ".toList l then l.drop 3 else l)))

/-- Amended author rule: first candidate line, with EVERY occurrence of the
case-sensitive substring `by ` removed, then trimmed. -/
def authorAmendedSpec (text : String) : Option String :=
  ((linesOfLC text.toList).find? authorCandB).map
    (fun l => String.mk (pyTrimLC (byReplace l)))

/-- A vision label name matches the classifier's fixed keyword set: `book`;
`cd` or `disc`; `dvd`, `bluray` or `video` (tested on the lowered name). -/
def labelMatchesKeyword (name : String) : Bool :=
  let n := pyLowerLC name.toList
  containsLC "book".toList n || containsLC "cd".toList n ||
    containsLC "disc".toList n || containsLC "dvd".toList n ||
    containsLC "bluray".toList n || containsLC "video".toList n

/-! ## Concrete inputs used by witnesses and counterexamples -/

/-- A Google Books hit for the spec's end-to-end scenario. -/
def gbHit : Net GBData :=
  some (true,
    { totalItems := 1
      items := [{ title := some "The C Programming Language"
                  authors := some ["Kernighan", "Ritchie"]
                  publisher := some "Prentice Hall"
                  publishedDate := some "1988-04-01" }] })

/-- Provider environment whose book chain succeeds and whose other providers
all fail. -/
def Pbook : Providers :=
  { gb := gbHit, ol := none, mb := none, tmdbKey := none, tmdb := none }

/-- Provider environment in which every network call raises and no TMDB key
is configured. -/
def Pnone : Providers :=
  { gb := none, ol := none, mb := none, tmdbKey := none, tmdb := none }

/-- The metadata `lookup_isbn` produces from `gbHit`. -/
def mGBHit : Meta :=
  { title := some "The C Programming Language"
    author := some "Kernighan, Ritchie"
    publisher := some "Prentice Hall"
    year := some "1988"
    isbn := some "9780131103627" }

/-- A successful vision outcome whose single object label matches none of the
classifier's keywords. -/
def cexLabels : List ObjLabel := [{ name := "shoe", score := 1 }]

/-- The vision response carrying `cexLabels` and the OCR text `Some text`. -/
def cexVision : VisionNet :=
  .resp 200 "" (some [{ objects := cexLabels, texts := ["Some text"] }])

/-- The HTTP-200 body `/lookup_barcode` produces from `Pbook` for the spec's
end-to-end barcode. -/
def rBook : BarcodeResponse :=
  { barcode := "9780131103627"
    media_type := some "book"
    title := some "The C Programming Language"
    year := some "1988"
    notes := none
    author := some "Kernighan, Ritchie"
    isbn := some "9780131103627"
    publisher := some "Prentice Hall"
    page_count := none
    physical_description := none
    book_genre := none
    artist := none
    album := none
    track_count := none
    audio_format := none
    audio_genre := none
    director := none
    runtime_minutes := none
    rating := none
    video_format := none
    video_genre := none }

/-! ## Claim theorems and witnesses -/

/-- C1: for every barcode whose stripped form has 13 characters,
`detect_and_lookup` tries the candidates in the fixed order book (ISBN
chain), then audio, then video, stopping at the first provider that returns
a non-empty result: a book hit leaves audio and video uninvoked, a book miss
followed by an audio hit leaves video uninvoked, and the winner's assumed
media type (`book`/`audio`/`video`) is set as `media_type` in the returned
metadata. -/
theorem claim1 (P : Providers) (barcode : String)
    (h : (pyStrip barcode).length = 13) :
    (∀ m, lookup_isbn P.gb P.ol (pyStrip barcode) = some m →
      detect_and_lookup_trace P barcode =
        (some { m with detected_type := some "isbn", media_type := some "book" },
         [ProviderId.isbnChain])) ∧
    (∀ m, lookup_isbn P.gb P.ol (pyStrip barcode) = none →
      lookup_upc_musicbrainz P.mb (pyStrip barcode) = some m →
      detect_and_lookup_trace P barcode =
        (some { m with detected_type := some "upc", media_type := some "audio" },
         [ProviderId.isbnChain, ProviderId.audioLookup])) ∧
    (∀ m, lookup_isbn P.gb P.ol (pyStrip barcode) = none →
      lookup_upc_musicbrainz P.mb (pyStrip barcode) = none →
      lookup_upc_tmdb P.tmdbKey P.tmdb (pyStrip barcode) = some m →
      detect_and_lookup_trace P barcode =
        (some { m with detected_type := some "upc", media_type := some "video" },
         [ProviderId.isbnChain, ProviderId.audioLookup, ProviderId.videoLookup])) ∧
    (lookup_isbn P.gb P.ol (pyStrip barcode) = none →
      lookup_upc_musicbrainz P.mb (pyStrip barcode) = none →
      lookup_upc_tmdb P.tmdbKey P.tmdb (pyStrip barcode) = none →
      detect_and_lookup_trace P barcode =
        (none, [ProviderId.isbnChain, ProviderId.audioLookup, ProviderId.videoLookup])) := by
  refine ⟨fun m hm => ?_, fun m h1 hm => ?_, fun m h1 h2 hm => ?_, fun h1 h2 h3 => ?_⟩ <;>
    unfold detect_and_lookup_trace afterIsbn <;>
    simp_all

/-- C6: a raw identifier whose whitespace-stripped length is outside
{10, 12, 13} yields an empty candidate sequence — `detect_and_lookup`
returns `none` with an empty provider trace (no network call) — and, when a
non-empty barcode was supplied, `/lookup_barcode` maps this to HTTP 404 with
an error message and the echoed barcode, not 500. -/
theorem claim6 (P : Providers) (s : String)
    (h : ¬((pyStrip s).length = 10 ∨ (pyStrip s).length = 12 ∨ (pyStrip s).length = 13)) :
    detect_and_lookup_trace P s = (none, []) ∧
    (s.isEmpty = false →
      lookup_barcode (some s) P = .notFound "No metadata found for barcode" s ∧
      statusCode (lookup_barcode (some s) P) = 404) := by
  push_neg at h
  obtain ⟨h10, h12, h13⟩ := h
  have hd : detect_and_lookup_trace P s = (none, []) := by
    unfold detect_and_lookup_trace afterIsbn
    simp [h10, h12, h13]
  have hd2 : detect_and_lookup P s = none := by
    unfold detect_and_lookup; rw [hd]
  refine ⟨hd, fun hs => ?_⟩
  have : lookup_barcode (some s) P = .notFound "No metadata found for barcode" s := by
    unfold lookup_barcode
    simp [hs, hd2]
  exact ⟨this, by rw [this]; rfl⟩

/-- C7: every transport or parse failure of a provider is caught inside
that provider's lookup and treated as no result: a Google Books failure
still consults OpenLibrary; both book catalogs, MusicBrainz and TMDB turn a
raised exception into `none`; `/lookup_barcode` never answers 500; and a
failing book chain does not prevent the audio candidate from being tried. -/
theorem claim7 :
    (∀ ol s, lookup_isbn none ol s = olTry ol s) ∧
    (∀ s, lookup_isbn none none s = none) ∧
    (∀ s, lookup_upc_musicbrainz none s = none) ∧
    (∀ k s, lookup_upc_tmdb k none s = none) ∧
    (∀ bf P, statusCode (lookup_barcode bf P) ≠ 500) ∧
    (∀ P s, P.gb = none → P.ol = none → (pyStrip s).length = 13 →
      ProviderId.audioLookup ∈ (detect_and_lookup_trace P s).2) := by
  refine ⟨fun ol s => rfl, fun s => rfl, fun s => rfl, fun k s => ?_, fun bf P => ?_, fun P s hgb hol h13 => ?_⟩
  · unfold lookup_upc_tmdb
    split <;> rfl
  · cases hr : lookup_barcode bf P <;> simp [statusCode]
  · have hisbn : lookup_isbn P.gb P.ol (pyStrip s) = none := by
      rw [hgb, hol]; rfl
    unfold detect_and_lookup_trace afterIsbn
    simp only [h13]
    rw [hisbn]
    cases hmb : lookup_upc_musicbrainz P.mb (pyStrip s) <;>
      [skip; skip] <;>
      simp [hmb]
    · cases htm : lookup_upc_tmdb P.tmdbKey P.tmdb (pyStrip s) <;> simp

/-- C8: when the vision credential is falsy, `process_image_for_media`
fails with the configuration-error dict regardless of the (never consulted)
network outcome, and `/process_image` surfaces it as a server error rather
than swallowing it. -/
theorem claim8 (key : Option String) (net : VisionNet) (img : String)
    (hkey : pyFalsyStr key = true) (himg : img.isEmpty = false) :
    process_image_for_media key net = .err "Google Vision API key not configured" ∧
    process_image (some img) key net = .serverError "Google Vision API key not configured" := by
  have h1 : process_image_for_media key net = .err "Google Vision API key not configured" := by
    unfold process_image_for_media
    simp [hkey]
  refine ⟨h1, ?_⟩
  unfold process_image
  simp [pyFalsyStr, himg, h1]

/-- C9: with the video-search credential absent, the TMDB provider returns
no result whatever the network would answer (and raises nothing), and a
13-character resolution whose other candidates failed runs the full chain to
its normal NotFound conclusion instead of aborting. -/
theorem claim9 :
    (∀ k net s, pyFalsyStr k = true → lookup_upc_tmdb k net s = none) ∧
    (∀ P s, pyFalsyStr P.tmdbKey = true → (pyStrip s).length = 13 →
      lookup_isbn P.gb P.ol (pyStrip s) = none →
      lookup_upc_musicbrainz P.mb (pyStrip s) = none →
      detect_and_lookup_trace P s =
        (none, [ProviderId.isbnChain, ProviderId.audioLookup, ProviderId.videoLookup])) := by
  have htm : ∀ k net s, pyFalsyStr k = true → lookup_upc_tmdb k net s = none := by
    intro k net s hk
    unfold lookup_upc_tmdb
    simp [hk]
  refine ⟨htm, fun P s hk h13 h1 h2 => ?_⟩
  unfold detect_and_lookup_trace afterIsbn
  simp [h13, h1, h2, htm _ _ _ hk]

theorem claim1_witness :
    detect_and_lookup_trace Pbook "9780131103627" =
      (some { mGBHit with detected_type := some "isbn", media_type := some "book" },
       [ProviderId.isbnChain]) :=
  (claim1 Pbook "9780131103627" (by decide)).1 mGBHit (by decide)

theorem claim6_witness :
    detect_and_lookup_trace Pnone "12345678901" = (none, []) ∧
    lookup_barcode (some "12345678901") Pnone =
      .notFound "No metadata found for barcode" "12345678901" ∧
    statusCode (lookup_barcode (some "12345678901") Pnone) = 404 :=
  ⟨(claim6 Pnone "12345678901" (by decide)).1,
   ((claim6 Pnone "12345678901" (by decide)).2 (by decide)).1,
   ((claim6 Pnone "12345678901" (by decide)).2 (by decide)).2⟩

theorem claim7_witness :
    ProviderId.audioLookup ∈ (detect_and_lookup_trace Pnone "0000000000000").2 :=
  claim7.2.2.2.2.2 Pnone "0000000000000" rfl rfl (by decide)

theorem claim8_witness :
    process_image_for_media none (VisionNet.exn "boom") =
      .err "Google Vision API key not configured" ∧
    process_image (some "data:image/jpeg;base64,AAAA") none (VisionNet.exn "boom") =
      .serverError "Google Vision API key not configured" :=
  claim8 none (VisionNet.exn "boom") "data:image/jpeg;base64,AAAA" rfl (by decide)

theorem claim9_witness :
    detect_and_lookup_trace Pnone "0000000000000" =
      (none, [ProviderId.isbnChain, ProviderId.audioLookup, ProviderId.videoLookup]) :=
  claim9.2 Pnone "0000000000000" rfl (by decide) rfl rfl
/-- A non-matching label leaves the running best of the classification loop
unchanged, whatever its score. -/
theorem classifyStep_nomatch (acc : Option String × ℚ) (o : ObjLabel)
    (h : labelMatchesKeyword o.name = false) : classifyStep acc o = acc := by
  unfold labelMatchesKeyword at h
  simp only [Bool.or_eq_false_iff] at h
  obtain ⟨⟨⟨⟨⟨h1, h2⟩, h3⟩, h4⟩, h5⟩, h6⟩ := h
  simp only [classifyStep]
  rw [h1, h2, h3, h4, h5, h6]
  simp

/-- When no label matches any keyword, the classification loop returns its
initial accumulator. -/
theorem classify_nomatch (objs : List ObjLabel)
    (h : ∀ o ∈ objs, labelMatchesKeyword o.name = false) :
    classifyLabels objs = (none, 0) := by
  unfold classifyLabels
  induction objs with
  | nil => rfl
  | cons o os ih =>
    rw [List.foldl_cons, classifyStep_nomatch _ o (h o (by simp))]
    exact ih (fun x hx => h x (by simp [hx]))

/-- C3 (amended): when the vision call succeeds but no returned label
contains any of the media keywords, the resolver reports media type `book`
— the same book default it uses internally as the parser's type hint — and
not null. -/
theorem claim3 (k rtext : String) (objs : List ObjLabel) (texts : List String)
    (hk : k.isEmpty = false)
    (hobjs : ∀ o ∈ objs, labelMatchesKeyword o.name = false) :
    pimMediaType (process_image_for_media (some k)
        (.resp 200 rtext (some [{ objects := objs, texts := texts }]))) = some "book" ∧
    process_image_for_media (some k)
        (.resp 200 rtext (some [{ objects := objs, texts := texts }])) =
      .ok "book" (parse_media_text (texts.headD "") "book").title
        (parse_media_text (texts.headD "") "book").author
        (parse_media_text (texts.headD "") "book").year (texts.headD "") 0 := by
  have hma : process_image_for_media (some k)
      (.resp 200 rtext (some [{ objects := objs, texts := texts }])) =
      .ok "book" (parse_media_text (texts.headD "") "book").title
        (parse_media_text (texts.headD "") "book").author
        (parse_media_text (texts.headD "") "book").year (texts.headD "") 0 := by
    unfold process_image_for_media
    simp only [pyFalsyStr, hk]
    rw [classify_nomatch objs hobjs]
    cases texts <;> simp
  exact ⟨by rw [hma]; rfl, hma⟩

/-- C3 counterexample: a successful vision response whose only label
(`shoe`) matches no keyword makes `process_image_for_media` report the
media type `book` in its output envelope, not null as claimed. -/
theorem claim3_cex :
    (∀ o ∈ cexLabels, labelMatchesKeyword o.name = false) ∧
    process_image_for_media (some "key") cexVision =
      .ok "book" none (some "Some text") none "Some text" 0 ∧
    pimMediaType (process_image_for_media (some "key") cexVision) ≠ none := by
  refine ⟨by decide, by decide, by decide⟩

/-- C3 witness: the amended theorem instantiated at the concrete
no-keyword response. -/
theorem claim3_witness :
    pimMediaType (process_image_for_media (some "key")
        (.resp 200 "" (some [{ objects := cexLabels, texts := ["Some text"] }]))) = some "book" ∧
    process_image_for_media (some "key")
        (.resp 200 "" (some [{ objects := cexLabels, texts := ["Some text"] }])) =
      .ok "book" (parse_media_text (["Some text"].headD "") "book").title
        (parse_media_text (["Some text"].headD "") "book").author
        (parse_media_text (["Some text"].headD "") "book").year (["Some text"].headD "") 0 :=
  claim3 "key" "" cexLabels ["Some text"] (by decide) (by decide)
/-- Whatever it matches, the group returned by the year scan is `19` or `20`:
`re.findall` with the pattern `\b(19|20)\d{2}\b` returns the text of the
two-character capturing group, never the full four-digit match. -/
theorem findYear_shape (l : List Char) :
    ∀ prev y, findYearGroup prev l = some y → y = ['1', '9'] ∨ y = ['2', '0'] := by
  induction l with
  | nil => intro prev y hy; simp [findYearGroup] at hy
  | cons c0 rest ih =>
    intro prev y hy
    rcases rest with _ | ⟨c1, rest2⟩
    · simp [findYearGroup] at hy
    rcases rest2 with _ | ⟨c2, rest3⟩
    · simp [findYearGroup] at hy
    rcases rest3 with _ | ⟨c3, tail⟩
    · simp [findYearGroup] at hy
    rw [findYearGroup] at hy
    split at hy
    next hc =>
      obtain rfl : [c0, c1] = y := by injection hy
      simp only [Bool.and_eq_true, Bool.or_eq_true, decide_eq_true_eq] at hc
      rcases hc.1.1.1.2 with ⟨rfl, rfl⟩ | ⟨rfl, rfl⟩
      · left; rfl
      · right; rfl
    next hc => exact ih (some c0) y hy

/-- The year component of the line scan only ever holds `19` or `20`. -/
theorem scan_year_inv (lines : List (List Char)) :
    ∀ acc : Option (List Char) × Option (List Char),
      (acc.2 = none ∨ acc.2 = some ['1', '9'] ∨ acc.2 = some ['2', '0']) →
      ((lines.foldl scanStep acc).2 = none ∨
        (lines.foldl scanStep acc).2 = some ['1', '9'] ∨
        (lines.foldl scanStep acc).2 = some ['2', '0']) := by
  induction lines with
  | nil => intro acc h; simpa using h
  | cons l ls ih =>
    intro acc h
    rw [List.foldl_cons]
    apply ih
    show (scanStep acc l).2 = none ∨ _ ∨ _
    unfold scanStep
    cases hf : findYearGroup none l with
    | none => simpa using h
    | some y =>
      rcases findYear_shape l none y hf with rfl | rfl <;>
        by_cases hg : pyFalsyLC acc.2 = true <;>
        simp [hg] <;> simpa using h

/-- C2: the year `parse_media_text` extracts is never a four-digit year:
for the text `Copyright 1999 Jane Doe, published 2005` it is the string
`19`, and in general it is always `19` or `20` (or absent), because
`re.findall` with the pattern `\b(19|20)\d{2}\b` returns the text of the
capturing group, not the full match — refuting the claim that the first
four-digit run (here `1999`) is extracted. -/
theorem claim2 :
    (parse_media_text "Copyright 1999 Jane Doe, published 2005" "book").year =
      some "19" ∧
    ∀ text mt, (parse_media_text text mt).year = none ∨
      (parse_media_text text mt).year = some "19" ∨
      (parse_media_text text mt).year = some "20" := by
  constructor
  · decide
  intro text mt
  have h := scan_year_inv (linesOfLC text.toList) (none, none) (Or.inl rfl)
  simp only [parse_media_text]
  rcases h with h | h | h
  · left; rw [h]; rfl
  · right; left; rw [h]; decide
  · right; right; rw [h]; decide
/-- Decomposition of Python's `max(..., key=len)` fold: the chosen element
splits the candidate list into a strictly-shorter prefix and a suffix, and
no candidate is longer. -/
theorem foldMax_decomp (xs : List (List Char)) :
    ∀ x : List Char, ∃ pre post,
      x :: xs = pre ++ (pyMaxByLen x xs) :: post ∧
      (∀ u ∈ pre, u.length < (pyMaxByLen x xs).length) ∧
      (∀ u ∈ x :: xs, u.length ≤ (pyMaxByLen x xs).length) := by
  induction xs with
  | nil =>
    intro x
    exact ⟨[], [], rfl, by simp, by simp [pyMaxByLen]⟩
  | cons l xs ih =>
    intro x
    have hstep : pyMaxByLen x (l :: xs) =
        pyMaxByLen (if l.length > x.length then l else x) xs := rfl
    by_cases hl : l.length > x.length
    · obtain ⟨pre, post, hdec, hpre, hall⟩ := ih l
      have hr : pyMaxByLen x (l :: xs) = pyMaxByLen l xs := by
        rw [hstep, if_pos hl]
      refine ⟨x :: pre, post, ?_, ?_, ?_⟩
      · rw [hr]
        simpa using congrArg (fun t => x :: t) hdec
      · intro u hu
        rw [hr]
        rcases List.mem_cons.mp hu with rfl | hu2
        · exact lt_of_lt_of_le hl (hall l (by simp))
        · exact hpre u hu2
      · intro u hu
        rw [hr]
        rcases List.mem_cons.mp hu with rfl | hu2
        · exact le_of_lt (lt_of_lt_of_le hl (hall l (by simp)))
        · exact hall u hu2
    · obtain ⟨pre, post, hdec, hpre, hall⟩ := ih x
      have hr : pyMaxByLen x (l :: xs) = pyMaxByLen x xs := by
        rw [hstep, if_neg hl]
      rcases pre with _ | ⟨p, pre2⟩
      · have hx : x = pyMaxByLen x xs := by
          have h' := congrArg List.head? hdec
          simpa using h'
        refine ⟨[], l :: xs, ?_, by simp, ?_⟩
        · rw [hr, ← hx]; rfl
        · intro u hu
          rw [hr]
          rcases List.mem_cons.mp hu with rfl | hu2
          · exact hall u (by simp)
          · rcases List.mem_cons.mp hu2 with rfl | hu3
            · have := hall x (by simp)
              omega
            · exact hall u (by simp [hu3])
      · have hpx : x = p := by
          have h' := congrArg List.head? hdec
          simpa using h'
        have htl : xs = pre2 ++ pyMaxByLen x xs :: post := by
          have h' := congrArg List.tail hdec
          simpa using h'
        refine ⟨x :: l :: pre2, post, ?_, ?_, ?_⟩
        · rw [hr]
          calc x :: l :: xs
              = x :: l :: (pre2 ++ pyMaxByLen x xs :: post) := by rw [← htl]
            _ = (x :: l :: pre2) ++ pyMaxByLen x xs :: post := by simp
        · intro u hu
          rw [hr]
          have hxlt : x.length < (pyMaxByLen x xs).length := by
            have h' := hpre p (by simp)
            rw [← hpx] at h'
            exact h'
          rcases List.mem_cons.mp hu with rfl | hu2
          · exact hxlt
          · rcases List.mem_cons.mp hu2 with rfl | hu3
            · omega
            · exact hpre u (by simp [hu3])
        · intro u hu
          rw [hr]
          rcases List.mem_cons.mp hu with rfl | hu2
          · exact hall u (by simp)
          · rcases List.mem_cons.mp hu2 with rfl | hu3
            · have := hall x (by simp)
              omega
            · exact hall u (by simp [hu3])

/-- `find?` skips a prefix on which the predicate is false and stops at the
first element satisfying it. -/
theorem find?_skip {α : Type} (p : α → Bool) (r : α) (post : List α) :
    ∀ pre : List α, (∀ u ∈ pre, p u = false) → p r = true →
      List.find? p (pre ++ r :: post) = some r := by
  intro pre
  induction pre with
  | nil =>
    intro _ hr
    exact List.find?_cons_of_pos post hr
  | cons a as ih =>
    intro h hr
    rw [List.cons_append, List.find?_cons_of_neg _ (by simp [h a (by simp)])]
    exact ih (fun u hu => h u (by simp [hu])) hr

/-- The stable-max fold equals "first element no other candidate beats". -/
theorem foldMax_eq_find (x : List Char) (xs : List (List Char)) :
    (x :: xs).find?
        (fun s => (x :: xs).all (fun u => u.length ≤ s.length)) =
      some (pyMaxByLen x xs) := by
  obtain ⟨pre, post, hdec, hpre, hall⟩ := foldMax_decomp xs x
  have hmem : pyMaxByLen x xs ∈ x :: xs := by
    rw [hdec]; exact List.mem_append_right _ (by simp)
  rw [hdec]
  apply find?_skip
  · intro u hu
    have hu2 : u.length < (pyMaxByLen x xs).length := hpre u hu
    rw [Bool.eq_false_iff]
    intro hcontra
    simp only [List.all_eq_true, decide_eq_true_eq] at hcontra
    have := hcontra (pyMaxByLen x xs) (List.mem_append_right _ (by simp))
    omega
  · simp only [List.all_eq_true, decide_eq_true_eq]
    intro u hu
    exact hall u (by rw [hdec]; exact hu)

/-- C5: the title `parse_media_text` extracts is exactly the first
longest among the trimmed non-empty lines longer than 10 characters not
starting (case-insensitively) with `isbn`, `by ` or `copyright`; a
10-character line is excluded, an 11-character line is eligible, and with no
surviving line the title is absent. -/
theorem claim5 :
    (∀ text mt, (parse_media_text text mt).title = titleSpec text) ∧
    (parse_media_text "ten chars!" "book").title = none ∧
    (parse_media_text "elevenchars" "book").title = some "elevenchars" := by
  refine ⟨fun text mt => ?_, by decide, by decide⟩
  have hlhs : (parse_media_text text mt).title =
      match (linesOfLC text.toList).filter titleCandB with
      | [] => none
      | p :: ps => some (String.mk (pyMaxByLen p ps)) := rfl
  rw [hlhs]
  simp only [titleSpec]
  rcases hfc : (linesOfLC text.toList).filter titleCandB with _ | ⟨p, ps⟩
  · rfl
  · rw [foldMax_eq_find p ps]
    rfl
/-- `byReplace` preserves the last character when it is not a space: every
removed occurrence ends in a space, so a non-space final character survives
as the final character of the result. -/
theorem getLast?_byReplace (l : List Char) :
    ∀ c, l.getLast? = some c → c ≠ ' ' → (byReplace l).getLast? = some c := by
  induction l using byReplace.induct with
  | case1 => intro c hc _; simp at hc
  | case2 rest ih =>
    intro c hc hne
    rcases rest with _ | ⟨d, ds⟩
    · simp [List.getLast?_cons_cons] at hc
      exact absurd hc.symm hne
    · rw [byReplace]
      apply ih
      · rw [List.getLast?_cons_cons, List.getLast?_cons_cons] at hc
        exact hc
      · exact hne
  | case3 c0 cs hnp ih =>
    intro c hc hne
    have hrw : byReplace (c0 :: cs) = c0 :: byReplace cs :=
      byReplace.eq_3 c0 cs hnp
    rcases cs with _ | ⟨d, ds⟩
    · simp at hc
      rw [hrw, hc]
      rfl
    · rw [List.getLast?_cons_cons] at hc
      have hres := ih c hc hne
      rw [hrw]
      rcases hbr : byReplace (d :: ds) with _ | ⟨e, es⟩
      · rw [hbr] at hres; simp at hres
      · rw [hbr] at hres
        rw [List.getLast?_cons_cons]
        exact hres

/-- The head of `dropWhile p` never satisfies `p`. -/
theorem head?_dropWhile_not {α : Type} (p : α → Bool) (l : List α) :
    ∀ c, (l.dropWhile p).head? = some c → p c = false := by
  induction l with
  | nil => intro c hc; simp at hc
  | cons a as ih =>
    intro c hc
    by_cases hp : p a = true
    · rw [List.dropWhile_cons_of_pos hp] at hc
      exact ih c hc
    · rw [List.dropWhile_cons_of_neg hp] at hc
      simp only [List.head?_cons, Option.some.injEq] at hc
      rw [← hc]
      exact Bool.eq_false_iff.mpr hp

/-- The last element, when present, is a member. -/
theorem mem_of_getLast?_eq {α : Type} (l : List α) :
    ∀ c, l.getLast? = some c → c ∈ l := by
  induction l with
  | nil => intro c hc; simp at hc
  | cons a as ih =>
    intro c hc
    rcases as with _ | ⟨b, bs⟩
    · simp at hc
      simp [hc]
    · rw [List.getLast?_cons_cons] at hc
      exact List.mem_cons_of_mem a (ih c hc)

/-- An element not satisfying `p` survives `dropWhile p`. -/
theorem mem_dropWhile_of_not {α : Type} (p : α → Bool) (l : List α) (x : α)
    (hx : x ∈ l) (hp : p x = false) : x ∈ l.dropWhile p := by
  induction l with
  | nil => simp at hx
  | cons a as ih =>
    rcases List.mem_cons.mp hx with rfl | hmem
    · rw [List.dropWhile_cons, hp]
      simp
    · by_cases ha : p a = true
      · rw [List.dropWhile_cons_of_pos ha]
        exact ih hmem
      · rw [List.dropWhile_cons_of_neg ha]
        exact List.mem_cons_of_mem a hmem

/-- A non-empty stripped string ends in a non-whitespace character. -/
theorem pyTrim_last_not_ws (t : List Char) (h : pyTrimLC t ≠ []) :
    ∃ c, (pyTrimLC t).getLast? = some c ∧ pyIsWs c = false := by
  unfold pyTrimLC at h ⊢
  rcases hh : ((t.dropWhile pyIsWs).reverse.dropWhile pyIsWs).head? with _ | c
  · exfalso
    apply h
    rw [List.head?_eq_none_iff] at hh
    simp [hh]
  · refine ⟨c, ?_, head?_dropWhile_not pyIsWs _ c hh⟩
    rw [List.getLast?_reverse]
    exact hh

/-- A list containing a non-whitespace character strips to a non-empty list. -/
theorem pyTrim_ne_nil_of_mem (l : List Char) (c : Char)
    (hc : c ∈ l) (hw : pyIsWs c = false) : pyTrimLC l ≠ [] := by
  apply List.ne_nil_of_mem (a := c)
  unfold pyTrimLC
  rw [List.mem_reverse]
  apply mem_dropWhile_of_not _ _ _ _ hw
  rw [List.mem_reverse]
  exact mem_dropWhile_of_not _ _ _ hc hw

/-- Removing the `by ` occurrences from a non-empty stripped line and
stripping again still leaves a non-empty line: the line's final character is
neither whitespace nor a space consumed by an occurrence. -/
theorem trim_byReplace_ne_nil (t : List Char) (h : pyTrimLC t ≠ []) :
    pyTrimLC (byReplace (pyTrimLC t)) ≠ [] := by
  obtain ⟨c, hlast, hws⟩ := pyTrim_last_not_ws t h
  have hcsp : c ≠ ' ' := by
    intro hsp
    rw [hsp] at hws
    simp [pyIsWs] at hws
  have hres := getLast?_byReplace (pyTrimLC t) c hlast hcsp
  exact pyTrim_ne_nil_of_mem _ c (mem_of_getLast?_eq _ c hres) hws

/-- Every line produced by the line-splitting pipeline is a non-empty
stripped string whose author transform is non-empty. -/
theorem linesOf_byReplace_ne_nil (cs : List Char) :
    ∀ l ∈ linesOfLC cs, (pyTrimLC (byReplace l)).isEmpty = false := by
  intro l hl
  unfold linesOfLC at hl
  rw [List.mem_filter] at hl
  obtain ⟨hmap, hne⟩ := hl
  rw [List.mem_map] at hmap
  obtain ⟨t, _, rfl⟩ := hmap
  have h0 : pyTrimLC t ≠ [] := by
    intro h'
    rw [h'] at hne
    simp at hne
  have h1 : pyTrimLC (byReplace (pyTrimLC t)) ≠ [] := trim_byReplace_ne_nil t h0
  rcases hx : pyTrimLC (byReplace (pyTrimLC t)) with _ | ⟨a, as⟩
  · exact absurd hx h1
  · rfl

/-- Once the author slot holds a non-empty value, the line scan never
overwrites it. -/
theorem scan_author_frozen (lines : List (List Char)) :
    ∀ (acc : Option (List Char) × Option (List Char)) (t : List Char),
      acc.1 = some t → t.isEmpty = false →
      (lines.foldl scanStep acc).1 = some t := by
  induction lines with
  | nil => intro acc t ht _; simpa using ht
  | cons l ls ih =>
    intro acc t ht hne
    rw [List.foldl_cons]
    apply ih _ t _ hne
    show (if authorCandB l && pyFalsyLC acc.1 then some (pyTrimLC (byReplace l))
          else acc.1) = some t
    rw [ht]
    have : pyFalsyLC (some t) = false := by simp [pyFalsyLC, hne]
    rw [this]
    simp

/-- The author slot of the line scan is the transform of the first candidate
line, provided every candidate's transform is non-empty. -/
theorem scan_author_eq (lines : List (List Char)) :
    ∀ acc : Option (List Char) × Option (List Char), acc.1 = none →
      (∀ l ∈ lines, authorCandB l = true →
        (pyTrimLC (byReplace l)).isEmpty = false) →
      (lines.foldl scanStep acc).1 =
        (lines.find? authorCandB).map (fun l => pyTrimLC (byReplace l)) := by
  induction lines with
  | nil => intro acc h _; simpa using h
  | cons l ls ih =>
    intro acc h hall
    rw [List.foldl_cons]
    by_cases hcand : authorCandB l = true
    · have hstep : (scanStep acc l).1 = some (pyTrimLC (byReplace l)) := by
        show (if authorCandB l && pyFalsyLC acc.1 then some (pyTrimLC (byReplace l))
              else acc.1) = _
        rw [hcand, h]
        simp [pyFalsyLC]
      rw [scan_author_frozen ls _ _ hstep (hall l (by simp) hcand)]
      rw [List.find?_cons_of_pos _ hcand]
      rfl
    · have hstep : (scanStep acc l).1 = none := by
        show (if authorCandB l && pyFalsyLC acc.1 then some (pyTrimLC (byReplace l))
              else acc.1) = _
        rw [Bool.eq_false_iff.mpr hcand]
        simpa using h
      rw [ih _ hstep (fun u hu => hall u (by simp [hu]))]
      rw [List.find?_cons_of_neg _ hcand]

/-- C4 counterexample: on the single line `Life by Jane` the claimed rule
(strip only a leading case-sensitive `by `) yields `Life by Jane`, but the
code's `line.replace('by ', '')` removes the interior occurrence and
produces `Life Jane`. -/
theorem claim4_cex :
    authorClaimedSpec "Life by Jane" = some "Life by Jane" ∧
    (parse_media_text "Life by Jane" "book").author = some "Life Jane" ∧
    (parse_media_text "Life by Jane" "book").author ≠
      authorClaimedSpec "Life by Jane" := by
  refine ⟨by decide, by decide, by decide⟩

/-- C4 (amended): the author `parse_media_text` extracts comes from the
first line that contains `by ` case-insensitively or consists of exactly two
whitespace-separated digit-free tokens, with EVERY occurrence of the
case-sensitive substring `by ` removed (not only a leading one) and
surrounding whitespace trimmed; later candidate lines are ignored, and on
the lines `Jane Doe` / `The Great Book` / `by John Smith` the author is
`Jane Doe`. -/
theorem claim4 :
    (∀ text mt, (parse_media_text text mt).author = authorAmendedSpec text) ∧
    (parse_media_text "Jane Doe\nThe Great Book\nby John Smith" "book").author =
      some "Jane Doe" := by
  refine ⟨fun text mt => ?_, by decide⟩
  have hlhs : (parse_media_text text mt).author =
      ((linesOfLC text.toList).foldl scanStep (none, none)).1.map String.mk := rfl
  rw [hlhs, scan_author_eq _ _ rfl (fun l hl _ => linesOf_byReplace_ne_nil text.toList l hl)]
  unfold authorAmendedSpec
  rcases (linesOfLC text.toList).find? authorCandB with _ | l
  · rfl
  · rfl
/-- The Google Books branch never sets artist, director or author-less
fields: whatever metadata it returns carries no artist and no director. -/
theorem gbTry_fields (gb : Net GBData) (s : String) (m : Meta)
    (h : gbTry gb s = some m) : m.artist = none ∧ m.director = none := by
  unfold gbTry at h
  split at h
  · split at h
    · split at h
      · obtain rfl := Option.some.inj h
        exact ⟨rfl, rfl⟩
      · exact absurd h (by simp)
    · exact absurd h (by simp)
  · exact absurd h (by simp)

/-- The OpenLibrary branch sets neither artist nor director. -/
theorem olTry_fields (ol : Net OLData) (s : String) (m : Meta)
    (h : olTry ol s = some m) : m.artist = none ∧ m.director = none := by
  unfold olTry at h
  split at h
  · split at h
    · split at h
      · exact absurd h (by simp)
      · obtain rfl := Option.some.inj h
        exact ⟨rfl, rfl⟩
    · exact absurd h (by simp)
  · exact absurd h (by simp)

/-- The ISBN chain sets neither artist nor director. -/
theorem lookup_isbn_fields (gb : Net GBData) (ol : Net OLData) (s : String)
    (m : Meta) (h : lookup_isbn gb ol s = some m) :
    m.artist = none ∧ m.director = none := by
  unfold lookup_isbn at h
  split at h
  · next m0 hg =>
      obtain rfl := Option.some.inj h
      exact gbTry_fields gb s m0 hg
  · exact olTry_fields ol s m h

/-- MusicBrainz sets neither author nor director. -/
theorem lookup_mb_fields (mb : Net MBData) (s : String) (m : Meta)
    (h : lookup_upc_musicbrainz mb s = some m) :
    m.author = none ∧ m.director = none := by
  unfold lookup_upc_musicbrainz at h
  split at h
  · split at h
    · obtain rfl := Option.some.inj h
      exact ⟨rfl, rfl⟩
    · exact absurd h (by simp)
  · exact absurd h (by simp)

/-- TMDB sets neither author, artist nor director. -/
theorem lookup_tmdb_fields (k : Option String) (net : Net TMDBData) (s : String)
    (m : Meta) (h : lookup_upc_tmdb k net s = some m) :
    m.author = none ∧ m.artist = none ∧ m.director = none := by
  unfold lookup_upc_tmdb at h
  split at h
  · exact absurd h (by simp)
  · split at h
    · split at h
      · obtain rfl := Option.some.inj h
        exact ⟨rfl, rfl, rfl⟩
      · exact absurd h (by simp)
    · exact absurd h (by simp)

/-- Any metadata returned by `detect_and_lookup` comes from exactly one of
the three providers with the corresponding tags set. -/
theorem detect_cases (P : Providers) (s : String) (m : Meta)
    (h : detect_and_lookup P s = some m) :
    (∃ m0, lookup_isbn P.gb P.ol (pyStrip s) = some m0 ∧
      m = { m0 with detected_type := some "isbn", media_type := some "book" }) ∨
    (∃ m0, lookup_upc_musicbrainz P.mb (pyStrip s) = some m0 ∧
      m = { m0 with detected_type := some "upc", media_type := some "audio" }) ∨
    (∃ m0, lookup_upc_tmdb P.tmdbKey P.tmdb (pyStrip s) = some m0 ∧
      m = { m0 with detected_type := some "upc", media_type := some "video" }) := by
  unfold detect_and_lookup detect_and_lookup_trace at h
  have hafter : ∀ tr : List ProviderId,
      (afterIsbn P (pyStrip s) tr).1 = some m →
      (∃ m0, lookup_upc_musicbrainz P.mb (pyStrip s) = some m0 ∧
        m = { m0 with detected_type := some "upc", media_type := some "audio" }) ∨
      (∃ m0, lookup_upc_tmdb P.tmdbKey P.tmdb (pyStrip s) = some m0 ∧
        m = { m0 with detected_type := some "upc", media_type := some "video" }) := by
    intro tr h2
    unfold afterIsbn at h2
    split at h2
    · split at h2
      · next m0 hm0 =>
          left
          exact ⟨m0, hm0, (Option.some.inj h2).symm⟩
      · split at h2
        · next m0 hm0 =>
            right
            exact ⟨m0, hm0, (Option.some.inj h2).symm⟩
        · exact absurd h2 (by simp)
    · exact absurd h2 (by simp)
  by_cases hlen : (pyStrip s).length = 10 ∨ (pyStrip s).length = 13
  · rw [if_pos hlen] at h
    rcases hi : lookup_isbn P.gb P.ol (pyStrip s) with _ | m0
    · rw [hi] at h
      exact Or.inr (hafter _ h)
    · rw [hi] at h
      left
      exact ⟨m0, rfl, (Option.some.inj h).symm⟩
  · rw [if_neg hlen] at h
    exact Or.inr (hafter _ h)

/-- C10: every HTTP-200 `/lookup_barcode` response echoes the input
barcode; its author field is the provider's author when truthy and
otherwise the provider's artist (an audio result, whose metadata has no
author, populates it with the artist); artist is non-null only for media
type audio and director only for video; and notes, page_count,
physical_description, album, track_count, audio_format, audio_genre,
runtime_minutes, rating, video_format and video_genre are always null. -/
theorem claim10 (bf : Option String) (P : Providers) (r : BarcodeResponse)
    (h : lookup_barcode bf P = .ok r) :
    bf = some r.barcode ∧
    (∃ m, detect_and_lookup P r.barcode = some m ∧
      r.author = pyOrStr m.author m.artist) ∧
    (r.media_type = some "audio" → r.author = r.artist) ∧
    (r.artist.isSome = true → r.media_type = some "audio") ∧
    (r.director.isSome = true → r.media_type = some "video") ∧
    r.notes = none ∧ r.page_count = none ∧ r.physical_description = none ∧
    r.album = none ∧ r.track_count = none ∧ r.audio_format = none ∧
    r.audio_genre = none ∧ r.runtime_minutes = none ∧ r.rating = none ∧
    r.video_format = none ∧ r.video_genre = none := by
  unfold lookup_barcode at h
  rcases bf with _ | b
  · exact absurd h (by simp)
  dsimp only at h
  by_cases hb : b.isEmpty = true
  · rw [if_pos hb] at h
    exact absurd h (by simp)
  rw [if_neg hb] at h
  rcases hd : detect_and_lookup P b with _ | m
  · rw [hd] at h
    exact absurd h (by simp)
  rw [hd] at h
  obtain rfl := (BarcodeEndpointResult.ok.inj h).symm
  rcases detect_cases P b m hd with ⟨m0, hm0, rfl⟩ | ⟨m0, hm0, rfl⟩ | ⟨m0, hm0, rfl⟩
  · obtain ⟨hart, hdir⟩ := lookup_isbn_fields P.gb P.ol (pyStrip b) m0 hm0
    refine ⟨rfl, ⟨_, hd, rfl⟩, ?_, ?_, ?_, rfl, rfl, rfl, rfl, rfl, rfl, rfl,
      rfl, rfl, rfl, rfl⟩
    · intro ha
      exact absurd ha (by simp)
    · intro ha
      simp at ha
    · intro ha
      simp at ha
  · obtain ⟨hauth, hdir⟩ := lookup_mb_fields P.mb (pyStrip b) m0 hm0
    refine ⟨rfl, ⟨_, hd, rfl⟩, ?_, ?_, ?_, rfl, rfl, rfl, rfl, rfl, rfl, rfl,
      rfl, rfl, rfl, rfl⟩
    · intro _
      simp [hauth, pyOrStr]
    · intro _
      rfl
    · intro ha
      simp at ha
  · obtain ⟨hauth, hart, hdir⟩ := lookup_tmdb_fields P.tmdbKey P.tmdb (pyStrip b) m0 hm0
    refine ⟨rfl, ⟨_, hd, rfl⟩, ?_, ?_, ?_, rfl, rfl, rfl, rfl, rfl, rfl, rfl,
      rfl, rfl, rfl, rfl⟩
    · intro ha
      exact absurd ha (by simp)
    · intro ha
      simp at ha
    · intro _
      rfl

/-- C10 witness: the theorem instantiated at the successful Google Books
environment. -/
theorem claim10_witness :
    (some "9780131103627" : Option String) = some rBook.barcode ∧
    (∃ m, detect_and_lookup Pbook rBook.barcode = some m ∧
      rBook.author = pyOrStr m.author m.artist) ∧
    (rBook.media_type = some "audio" → rBook.author = rBook.artist) ∧
    (rBook.artist.isSome = true → rBook.media_type = some "audio") ∧
    (rBook.director.isSome = true → rBook.media_type = some "video") ∧
    rBook.notes = none ∧ rBook.page_count = none ∧
    rBook.physical_description = none ∧ rBook.album = none ∧
    rBook.track_count = none ∧ rBook.audio_format = none ∧
    rBook.audio_genre = none ∧ rBook.runtime_minutes = none ∧
    rBook.rating = none ∧ rBook.video_format = none ∧
    rBook.video_genre = none :=
  claim10 (some "9780131103627") Pbook rBook (by decide)
